import Mathlib

/-!
Verification of `src/examples/bad-example.py` against its specification.

The Python fixture is shallowly embedded: Python integers become `Int`,
float literals become `Rat`, dictionaries with fixed keys become structures,
loops that accumulate into a list or a number become structural recursion or
folds, exceptions become `Except`, and module-level mutable state becomes
explicit state passing.  The spec's minimal static-analysis core (rule
engine and reporter), which the repository itself does not implement, is
modelled from the spec's words and marked as such.
-/

namespace BadExample

/-! ### `Calculate_Total` (bad-example.py lines 11-16) -/

/-- An element of the `items` list: a record carrying a numeric `price`
field (other dictionary content is irrelevant to `Calculate_Total`). -/
structure PricedItem where
  price : Rat

/-- Embedding of `Calculate_Total`: `t = 0`; `for i in items: t += i['price']`;
`return t`. -/
def Calculate_Total (items : List PricedItem) : Rat :=
  items.foldl (fun t i => t + i.price) 0

/-! ### `complex_calculation` (bad-example.py lines 48-68) -/

/-- Embedding of `complex_calculation`, the 6-deep nest of conditionals. -/
def complex_calculation (x y z : Int) : Int :=
  if x > 0 then
    if y > 0 then
      if z > 0 then
        if x > y then
          if y > z then
            if x > z then x * y * z
            else x + y + z
          else x - y - z
        else y * z
      else x + y
    else x
  else 0

/-- The reference definition quoted by the spec: "if x > 0 then (if y > 0
then (if z > 0 then (if x > y then (if y > z then (if x > z then x*y*z else
x+y+z) else x-y-z) else y*z) else x+y) else x) else 0". -/
def complex_calculation_ref (x y z : Int) : Int :=
  if x > 0 then
    (if y > 0 then
      (if z > 0 then
        (if x > y then
          (if y > z then
            (if x > z then x * y * z else x + y + z)
          else x - y - z)
        else y * z)
      else x + y)
    else x)
  else 0

/-- A conditional-expression tree over the three integer arguments, used to
count decision points of the nest. -/
inductive CExpr where
  | ret (f : Int → Int → Int → Int) : CExpr
  | cond (c : Int → Int → Int → Bool) (t e : CExpr) : CExpr

/-- Evaluation of a conditional-expression tree. -/
def CExpr.eval : CExpr → Int → Int → Int → Int
  | .ret f, x, y, z => f x y z
  | .cond c t e, x, y, z => if c x y z then t.eval x y z else e.eval x y z

/-- Number of decision points (conditional tests) of a tree. -/
def CExpr.decisionPoints : CExpr → Nat
  | .ret _ => 0
  | .cond _ t e => 1 + t.decisionPoints + e.decisionPoints

/-- The tree of `complex_calculation`'s body. -/
def complexCalcExpr : CExpr :=
  .cond (fun x _ _ => decide (x > 0))
    (.cond (fun _ y _ => decide (y > 0))
      (.cond (fun _ _ z => decide (z > 0))
        (.cond (fun x y _ => decide (x > y))
          (.cond (fun _ y z => decide (y > z))
            (.cond (fun x _ z => decide (x > z))
              (.ret fun x y z => x * y * z)
              (.ret fun x y z => x + y + z))
            (.ret fun x y z => x - y - z))
          (.ret fun _ y z => y * z))
        (.ret fun x y _ => x + y))
      (.ret fun x _ _ => x))
    (.ret fun _ _ _ => 0)

/-- The seven return sites of `complex_calculation`, named after the value
each returns. -/
inductive CalcBranch where
  | mulAll | addAll | subAll | mulYZ | addXY | onlyX | zero
deriving DecidableEq

/-- Which return site of `complex_calculation` a given input reaches; the
conditional structure is copied verbatim from the source. -/
def complex_calculation_branch (x y z : Int) : CalcBranch :=
  if x > 0 then
    if y > 0 then
      if z > 0 then
        if x > y then
          if y > z then
            if x > z then .mulAll
            else .addAll
          else .subAll
        else .mulYZ
      else .addXY
    else .onlyX
  else .zero

/-! ### `global_counter` / `increment_counter` (bad-example.py lines 71-77) -/

/-- The module-level state: the counter plus the rest of the module's
bindings, kept abstract so that "modifies no other module-level state" is
expressible. -/
structure ModuleState (σ : Type) where
  global_counter : Int
  rest : σ

/-- Embedding of `increment_counter`: `global global_counter;
global_counter += 1; return global_counter`. -/
def increment_counter {σ : Type} (s : ModuleState σ) : ModuleState σ × Int :=
  let s1 := { s with global_counter := s.global_counter + 1 }
  (s1, s1.global_counter)

/-! ### `process_data` / `filter_data` (bad-example.py lines 19-45) -/

/-- An element of the `data` list: a record with the four keys the two
functions read (`id`, `name`, `status`, `value`). -/
structure DataItem where
  id : Int
  name : String
  status : String
  value : Rat

/-- An element of the result list: the record built in the loop body, with
keys `id`, `name`, `value`. -/
structure TransformedItem where
  id : Int
  name : String
  value : Rat

/-- Embedding of `process_data`: keep items whose `status` is `'active'`,
scaling `value` by `1.1`. -/
def process_data : List DataItem → List TransformedItem
  | [] => []
  | item :: rest =>
    if item.status = "active" then
      ⟨item.id, item.name, item.value * (11 / 10)⟩ :: process_data rest
    else process_data rest

/-- Embedding of `filter_data`: keep items whose `status` is `'pending'`,
scaling `value` by `1.2`. -/
def filter_data : List DataItem → List TransformedItem
  | [] => []
  | item :: rest =>
    if item.status = "pending" then
      ⟨item.id, item.name, item.value * (12 / 10)⟩ :: filter_data rest
    else filter_data rest

/-- The single parametric function of (status literal, multiplier) of which
`process_data` and `filter_data` are the two instances. -/
def transform_with (status : String) (multiplier : Rat) :
    List DataItem → List TransformedItem
  | [] => []
  | item :: rest =>
    if item.status = status then
      ⟨item.id, item.name, item.value * multiplier⟩ ::
        transform_with status multiplier rest
    else transform_with status multiplier rest

/-! ### `risky_function` (lines 80-85) and `read_config_file` (lines 137-157) -/

/-- Exceptions the two file-reading functions can propagate. -/
inductive FileErr where
  | fileNotFound (msg : String)
  | readError
  | jsonDecodeError (msg : String)
deriving DecidableEq

/-- The file-system state visible to the embedding: the list of currently
open handles, identified by filename. -/
structure FS where
  handles : List String
deriving DecidableEq

/-- The environment a run happens in: whether `open` succeeds on a name,
whether reading the open file raises, whether `json.load` succeeds, and the
content delivered on success. -/
structure Env where
  openOk : String → Bool
  readRaises : String → Bool
  parseOk : String → Bool
  content : String → String

/-- Embedding of `risky_function`: `file = open(filename, 'r')`;
`content = file.read()`; `file.close()`; `return content`.  If `open`
raises, nothing was acquired; if the read raises, the exception propagates
before `file.close()` is reached, so the handle stays open. -/
def risky_function (env : Env) (fs : FS) (filename : String) :
    FS × Except FileErr String :=
  if env.openOk filename then
    let fs1 : FS := ⟨filename :: fs.handles⟩
    if env.readRaises filename then
      (fs1, .error .readError)
    else
      (⟨fs.handles⟩, .ok (env.content filename))
  else
    (fs, .error (.fileNotFound filename))

/-- Embedding of `read_config_file`: `with open(filename, 'r', ...) as
file: return json.load(file)`, re-raising `FileNotFoundError` and
`json.JSONDecodeError` with new messages.  The `with` block closes the
handle on every exit path, so the net handle state is unchanged on all
paths. -/
def read_config_file (env : Env) (fs : FS) (filename : String) :
    FS × Except FileErr String :=
  if env.openOk filename then
    if env.parseOk filename then
      (fs, .ok (env.content filename))
    else
      (fs, .error (.jsonDecodeError ("Invalid JSON in configuration file: " ++ filename)))
  else
    (fs, .error (.fileNotFound ("Configuration file not found: " ++ filename)))

/-! ### `user_manager` (bad-example.py lines 98-115) -/

/-- A stored user: a record with an `id` key (plus other content,
represented by `name`). -/
structure User where
  id : Int
  name : String
deriving DecidableEq

/-- Embedding of the `user_manager` class: its only instance state is the
`users` list created in `__init__`. -/
structure user_manager where
  users : List User
deriving DecidableEq

/-- Embedding of `add_usr`: `self.users.append(user)`. -/
def user_manager.add_usr (self : user_manager) (user : User) : user_manager :=
  { self with users := self.users.concat user }

/-- The loop of `get_user_by_id`: `for u in self.users: if u['id'] == id:
return u`; falls through to `None`. -/
def find_user (id : Int) : List User → Option User
  | [] => none
  | u :: rest => if u.id = id then some u else find_user id rest

/-- Embedding of `get_user_by_id`. -/
def user_manager.get_user_by_id (self : user_manager) (id : Int) : Option User :=
  find_user id self.users

/-- A concrete environment in which `open` succeeds and the subsequent read
raises, used to witness the resource-release theorem. -/
def sampleEnv : Env :=
  ⟨fun _ => true, fun _ => true, fun _ => true, fun _ => "x"⟩

end BadExample

namespace Analyzer

/-- Modelled from the spec: a `Finding` is one rule violation, with
attributes rule id, severity, file path, line number, message.  The
repository supplies no engine code, only the fixture, so the data model
follows the spec's section 3. -/
structure Finding where
  ruleId : String
  severity : Nat
  file : String
  line : Nat
  message : String
deriving DecidableEq

/-- The total sort key used by the reporter: lexicographic on (file, line,
rule id), with message and severity as final tie-breakers to make the order
linear on findings. -/
def Finding.key (f : Finding) : String ×ₗ ℕ ×ₗ String ×ₗ String ×ₗ ℕ :=
  toLex (f.file, toLex (f.line, toLex (f.ruleId, toLex (f.message, f.severity))))

/-- The deduplication key: the (file, line, rule id, message) quadruple,
ordered lexicographically. -/
def Finding.groupKey (f : Finding) : String ×ₗ ℕ ×ₗ String ×ₗ String :=
  toLex (f.file, toLex (f.line, toLex (f.ruleId, f.message)))

/-- The (file, line) position key. -/
def Finding.posKey (f : Finding) : String ×ₗ ℕ :=
  toLex (f.file, f.line)

/-- The reporter's sort order on findings. -/
def findingOrder (a b : Finding) : Prop :=
  a.key ≤ b.key

instance : DecidableRel findingOrder :=
  fun a b => inferInstanceAs (Decidable (a.key ≤ b.key))

instance : IsTotal Finding findingOrder :=
  ⟨fun a b => le_total a.key b.key⟩

instance : IsTrans Finding findingOrder :=
  ⟨fun _ _ _ hab hbc => le_trans hab hbc⟩

instance : IsAntisymm Finding findingOrder :=
  ⟨fun a b h1 h2 => by
    have h := le_antisymm h1 h2
    cases a
    cases b
    simp only [Finding.key, toLex_inj, Prod.mk.injEq] at h
    simp_all⟩

/-- Modelled from the spec: the Reporter's deduplication pass, removing a
finding whose (rule id, file, line, message) quadruple repeats that of its
predecessor in the sorted list. -/
def dedupByGroup : List Finding → List Finding
  | [] => []
  | [a] => [a]
  | a :: b :: rest =>
    if a.groupKey = b.groupKey then dedupByGroup (a :: rest)
    else a :: dedupByGroup (b :: rest)
termination_by l => l.length

/-- Modelled from the spec: the Reporter merges the findings of all rules,
sorts by (file, line, rule id), and deduplicates repeats of the (rule id,
file, line, message) quadruple. -/
def aggregate_report (findings : List Finding) : List Finding :=
  dedupByGroup (List.insertionSort findingOrder findings)

/-- Modelled from the spec: the Rule Engine evaluates every registered rule
(a pure function from the parsed unit to a list of findings) and hands the
combined findings to the Reporter. -/
def run_rules {U : Type} (rules : List (U → List Finding)) (unit : U) :
    List Finding :=
  aggregate_report (rules.flatMap fun rule => rule unit)

/-- A sample finding, used to witness the order-independence theorem. -/
def sampleFinding1 : Finding :=
  ⟨"naming-convention", 2, "examples/bad-example.py", 11,
    "Function name Calculate_Total is not snake_case"⟩

/-- A second sample finding at a different location. -/
def sampleFinding2 : Finding :=
  ⟨"global-state", 2, "examples/bad-example.py", 75,
    "Module-level variable global_counter is reassigned inside a function"⟩

/-- A sample rule emitting `sampleFinding1`. -/
def sampleRule1 : Nat → List Finding := fun _ => [sampleFinding1]

/-- A sample rule emitting `sampleFinding2`. -/
def sampleRule2 : Nat → List Finding := fun _ => [sampleFinding2]

end Analyzer

namespace BadExample

/-- C1: `complex_calculation` equals the spec's 6-level nested conditional
reference definition on every input, its body is the conditional tree
`complexCalcExpr`, and that tree has exactly 6 decision points. -/
theorem complex_calculation_is_six_branch_nest :
    (∀ x y z : Int, complex_calculation x y z = complex_calculation_ref x y z)
    ∧ (∀ x y z : Int, CExpr.eval complexCalcExpr x y z = complex_calculation x y z)
    ∧ CExpr.decisionPoints complexCalcExpr = 6 := by
  refine ⟨fun x y z => rfl, fun x y z => ?_, rfl⟩
  simp only [complexCalcExpr, CExpr.eval, complex_calculation, decide_eq_true_eq]

/-- C7: no input reaches the `x + y + z` return site of
`complex_calculation`; whenever the five outer tests hold, the innermost
`x > z` test holds as well. -/
theorem complex_calculation_dead_branch :
    ∀ x y z : Int,
      decide (complex_calculation_branch x y z = CalcBranch.addAll) = false := by
  intro x y z
  simp only [decide_eq_false_iff_not, complex_calculation_branch]
  split_ifs with h1 h2 h3 h4 h5 h6 <;> simp_all
  omega

/-- C2: one call to `increment_counter` on any module state with counter
`c` sets the counter to `c + 1`, returns `c + 1`, and leaves the rest of
the module state unchanged. -/
theorem increment_counter_spec :
    ∀ (σ : Type) (s : ModuleState σ),
      (increment_counter s).1.global_counter = s.global_counter + 1
      ∧ (increment_counter s).2 = s.global_counter + 1
      ∧ (increment_counter s).1.rest = s.rest :=
  fun _ _ => ⟨rfl, rfl, rfl⟩

theorem process_data_eq_transform (data : List DataItem) :
    process_data data = transform_with "active" (11 / 10) data := by
  induction data with
  | nil => rfl
  | cons item rest ih => simp only [process_data, transform_with, ih]

theorem filter_data_eq_transform (data : List DataItem) :
    filter_data data = transform_with "pending" (12 / 10) data := by
  induction data with
  | nil => rfl
  | cons item rest ih => simp only [filter_data, transform_with, ih]

/-- C3: `process_data` and `filter_data` are the two instances of the one
parametric function `transform_with` at ('active', 1.1) and
('pending', 1.2) respectively, on every input list. -/
theorem duplicate_blocks_parametric :
    ∀ data : List DataItem,
      process_data data = transform_with "active" (11 / 10) data
      ∧ filter_data data = transform_with "pending" (12 / 10) data :=
  fun data => ⟨process_data_eq_transform data, filter_data_eq_transform data⟩

theorem calc_total_foldl (items : List PricedItem) :
    ∀ t : Rat,
      items.foldl (fun t i => t + i.price) t = t + (items.map fun i => i.price).sum := by
  induction items with
  | nil => intro t; simp
  | cons i rest ih =>
    intro t
    simp [List.foldl_cons, ih, add_assoc]

/-- C8: `Calculate_Total` returns the sum of the `price` fields of the
input items, and in particular returns 0 on the empty list. -/
theorem Calculate_Total_sums_prices :
    (∀ items : List PricedItem,
      Calculate_Total items = (items.map fun i => i.price).sum)
    ∧ Calculate_Total [] = 0 := by
  refine ⟨fun items => ?_, rfl⟩
  simpa using calc_total_foldl items 0

theorem find_user_eq_none_iff (i : Int) (l : List User) :
    find_user i l = none ↔ ∀ u ∈ l, u.id ≠ i := by
  induction l with
  | nil => simp [find_user]
  | cons u rest ih =>
    by_cases h : u.id = i
    · simp [find_user, h]
    · simp [find_user, h, ih]

theorem find_user_eq_some (i : Int) (l : List User) (u : User)
    (h : find_user i l = some u) :
    u.id = i ∧ ∃ l1 l2, l = l1 ++ u :: l2 ∧ ∀ v ∈ l1, v.id ≠ i := by
  induction l with
  | nil => simp [find_user] at h
  | cons w rest ih =>
    by_cases hw : w.id = i
    · rw [find_user, if_pos hw] at h
      obtain rfl : w = u := by simpa using h
      exact ⟨hw, [], rest, rfl, by simp⟩
    · rw [find_user, if_neg hw] at h
      obtain ⟨hid, l1, l2, heq, hall⟩ := ih h
      refine ⟨hid, w :: l1, l2, by rw [heq]; rfl, ?_⟩
      intro v hv
      rcases List.mem_cons.mp hv with rfl | hv1
      · exact hw
      · exact hall v hv1

/-- C9: `get_user_by_id` returns `none` iff no stored user has the given
id, and when it returns a user, that user carries the id and is the first
stored user with it; `add_usr` appends the new user at the end of the
stored list. -/
theorem user_manager_spec :
    ∀ (s : user_manager) (i : Int),
      (s.get_user_by_id i = none ↔ ∀ u ∈ s.users, u.id ≠ i)
      ∧ (∀ u, s.get_user_by_id i = some u →
          u.id = i ∧ ∃ l1 l2, s.users = l1 ++ u :: l2 ∧ ∀ v ∈ l1, v.id ≠ i)
      ∧ (∀ user, (s.add_usr user).users = s.users ++ [user]) := by
  intro s i
  refine ⟨find_user_eq_none_iff i s.users,
    fun u h => find_user_eq_some i s.users u h,
    fun user => ?_⟩
  simp [user_manager.add_usr]

/-- C4: when `open` succeeds and the read raises, `risky_function` exits
with the handle still open (the close is never executed) and propagates the
exception, while `read_config_file`, which uses `with`, leaves the handle
state unchanged on every exit path. -/
theorem resource_release (env : Env) (fs : FS) (filename : String)
    (hopen : env.openOk filename = true) (hread : env.readRaises filename = true) :
    ((risky_function env fs filename).1.handles = filename :: fs.handles
      ∧ (risky_function env fs filename).2 = Except.error FileErr.readError)
    ∧ ∀ (env2 : Env) (fs2 : FS) (f2 : String),
        (read_config_file env2 fs2 f2).1 = fs2 := by
  refine ⟨?_, fun env2 fs2 f2 => ?_⟩
  · simp [risky_function, hopen, hread]
  · rw [read_config_file]
    split_ifs
    all_goals rfl

/-- Witness for C4 at a concrete environment, file system and filename. -/
theorem resource_release_witness :
    (sampleEnv.openOk "config.json" = true
      ∧ sampleEnv.readRaises "config.json" = true)
    ∧ (((risky_function sampleEnv ⟨[]⟩ "config.json").1.handles
          = "config.json" :: (⟨[]⟩ : FS).handles
        ∧ (risky_function sampleEnv ⟨[]⟩ "config.json").2
          = Except.error FileErr.readError)
      ∧ ∀ (env2 : Env) (fs2 : FS) (f2 : String),
          (read_config_file env2 fs2 f2).1 = fs2) :=
  ⟨⟨rfl, rfl⟩, resource_release sampleEnv ⟨[]⟩ "config.json" rfl rfl⟩

end BadExample

namespace Analyzer

theorem findingOrder_posKey_le {a b : Finding} (h : findingOrder a b) :
    a.posKey ≤ b.posKey := by
  simp only [findingOrder, Finding.key, Prod.Lex.le_iff] at h
  simp only [Finding.posKey, Prod.Lex.le_iff]
  rcases h with h | ⟨h1, h | ⟨h2, _⟩⟩
  · exact Or.inl h
  · exact Or.inr ⟨h1, le_of_lt h⟩
  · exact Or.inr ⟨h1, le_of_eq h2⟩

theorem findingOrder_groupKey_le {a b : Finding} (h : findingOrder a b) :
    a.groupKey ≤ b.groupKey := by
  simp only [findingOrder, Finding.key, Prod.Lex.le_iff] at h
  simp only [Finding.groupKey, Prod.Lex.le_iff]
  rcases h with h | ⟨h1, h | ⟨h2, h | ⟨h3, h | ⟨h4, _⟩⟩⟩⟩
  · exact Or.inl h
  · exact Or.inr ⟨h1, Or.inl h⟩
  · exact Or.inr ⟨h1, Or.inr ⟨h2, Or.inl h⟩⟩
  · exact Or.inr ⟨h1, Or.inr ⟨h2, Or.inr ⟨h3, le_of_lt h⟩⟩⟩
  · exact Or.inr ⟨h1, Or.inr ⟨h2, Or.inr ⟨h3, le_of_eq h4⟩⟩⟩

theorem dedupByGroup_sublist : ∀ l : List Finding, List.Sublist (dedupByGroup l) l := by
  intro l
  induction l using dedupByGroup.induct with
  | case1 => simp [dedupByGroup]
  | case2 a => simp [dedupByGroup]
  | case3 a b rest h ih =>
    rw [dedupByGroup, if_pos h]
    exact ih.trans (List.cons_sublist_cons.mpr (List.sublist_cons_self b rest))
  | case4 a b rest h ih =>
    rw [dedupByGroup, if_neg h]
    exact List.cons_sublist_cons.mpr ih

theorem dedupByGroup_head : ∀ l : List Finding, (dedupByGroup l).head? = l.head? := by
  intro l
  induction l using dedupByGroup.induct with
  | case1 => simp [dedupByGroup]
  | case2 a => simp [dedupByGroup]
  | case3 a b rest h ih => rw [dedupByGroup, if_pos h, ih]; simp
  | case4 a b rest h ih => rw [dedupByGroup, if_neg h]; simp

theorem dedupByGroup_chain :
    ∀ l : List Finding,
      (dedupByGroup l).Chain' fun a b => a.groupKey ≠ b.groupKey := by
  intro l
  induction l using dedupByGroup.induct with
  | case1 => simp [dedupByGroup]
  | case2 a => simp [dedupByGroup]
  | case3 a b rest h ih => rw [dedupByGroup, if_pos h]; exact ih
  | case4 a b rest h ih =>
    rw [dedupByGroup, if_neg h]
    rcases hd : dedupByGroup (b :: rest) with _ | ⟨c, t⟩
    · simp
    · have hc : c = b := by
        have hh := dedupByGroup_head (b :: rest)
        rw [hd] at hh
        simpa using hh
      subst hc
      rw [hd] at ih
      exact List.chain'_cons.mpr ⟨h, ih⟩

theorem pairwise_ne_of_sorted_chain {α K : Type} [LinearOrder K] (k : α → K)
    (r : α → α → Prop) (hmono : ∀ a b, r a b → k a ≤ k b) :
    ∀ l : List α, l.Pairwise r → (l.Chain' fun a b => k a ≠ k b) →
      l.Pairwise fun a b => k a ≠ k b := by
  intro l
  induction l with
  | nil => intro _ _; exact List.Pairwise.nil
  | cons a t ih =>
    intro hs hc
    obtain ⟨ha, ht⟩ := List.pairwise_cons.mp hs
    cases t with
    | nil => simp
    | cons b t1 =>
      obtain ⟨hab, hc1⟩ := List.chain'_cons.mp hc
      refine List.pairwise_cons.mpr ⟨?_, ih ht hc1⟩
      intro x hx heq
      rcases List.mem_cons.mp hx with rfl | hxt
      · exact hab heq
      · have h1 : k a ≤ k b := hmono _ _ (ha b (by simp))
        have h2 : k b ≤ k x := hmono _ _ ((List.pairwise_cons.mp ht).1 x hxt)
        exact hab (le_antisymm h1 (heq ▸ h2))

theorem aggregate_report_sorted (fs : List Finding) :
    (aggregate_report fs).Pairwise findingOrder :=
  List.Pairwise.sublist (dedupByGroup_sublist _)
    (List.sorted_insertionSort findingOrder fs)

theorem aggregate_report_perm_eq {l1 l2 : List Finding} (h : l1.Perm l2) :
    aggregate_report l1 = aggregate_report l2 := by
  unfold aggregate_report
  congr 1
  exact List.eq_of_perm_of_sorted
    ((List.perm_insertionSort _ l1).trans (h.trans (List.perm_insertionSort _ l2).symm))
    (List.sorted_insertionSort _ l1) (List.sorted_insertionSort _ l2)

/-- C5: for every analysis run, the report is sorted by (file, line) and
retains no two findings with identical (rule id, file, line, message). -/
theorem report_sorted_and_deduplicated {U : Type}
    (rules : List (U → List Finding)) (unit : U) :
    ((run_rules rules unit).Pairwise fun a b => a.posKey ≤ b.posKey)
    ∧ ((run_rules rules unit).Pairwise fun a b =>
        ¬(a.ruleId = b.ruleId ∧ a.file = b.file
          ∧ a.line = b.line ∧ a.message = b.message)) := by
  have hsorted : (run_rules rules unit).Pairwise findingOrder :=
    aggregate_report_sorted _
  constructor
  · exact hsorted.imp fun h => findingOrder_posKey_le h
  · have hchain : (run_rules rules unit).Chain' fun a b => a.groupKey ≠ b.groupKey :=
      dedupByGroup_chain _
    have hp := pairwise_ne_of_sorted_chain Finding.groupKey findingOrder
      (fun _ _ h => findingOrder_groupKey_le h) _ hsorted hchain
    refine hp.imp fun hne hfields => hne ?_
    obtain ⟨h1, h2, h3, h4⟩ := hfields
    simp only [Finding.groupKey, h1, h2, h3, h4]

/-- C6: permuting the registered rules does not change the final
deduplicated report. -/
theorem report_order_independent {U : Type}
    (rules1 rules2 : List (U → List Finding)) (unit : U)
    (hperm : rules1.Perm rules2) :
    run_rules rules1 unit = run_rules rules2 unit := by
  unfold run_rules
  exact aggregate_report_perm_eq (hperm.flatMap_right fun rule => rule unit)

/-- Witness for C6: swapping two concrete rules yields the same report. -/
theorem report_order_independent_witness :
    ([sampleRule1, sampleRule2].Perm [sampleRule2, sampleRule1])
    ∧ run_rules [sampleRule1, sampleRule2] 0
      = run_rules [sampleRule2, sampleRule1] 0 :=
  ⟨List.Perm.swap sampleRule2 sampleRule1 [],
    report_order_independent [sampleRule1, sampleRule2]
      [sampleRule2, sampleRule1] 0 (List.Perm.swap sampleRule2 sampleRule1 [])⟩

end Analyzer
